import Mathlib

/-!
# Verification of the Agentic Attention System core

Shallow embedding of the repository's classification engine
(`src/classify.py`), session state store (`src/state.py`), notification
sinks (`src/notify.py`) and event router (`src/router.py`), together
with theorems settling the specification claims about them.

Modelling conventions:
* Python regular expressions are external to the repository; a compiled
  pattern is modelled as an abstract matcher (`Regex`): `valid` is true
  exactly when `re` compiles the pattern (an invalid pattern makes
  `re.search` raise `re.error`), and `search text` models
  `re.search(pattern, text, re.IGNORECASE | re.MULTILINE) is not None`.
* The configuration dictionary parsed from `priorities.toml` is modelled
  per its documented schema: named tier tables (arbitrary names allowed,
  since `classify_priority` looks tiers up by name), a `project` table
  and a `states` table.  Fields read with `.get(key, default)` are
  `Option`-valued with the default applied at the call site, exactly as
  in the source.
* A transcript is a list of lines; each line carries its raw text (the
  input `detect_project` runs the path regex over) and its parsed form
  (`json.loads` of the stripped line), which is `malformed` when parsing
  fails.  A JSON `type`/`role` value that is absent or not a string is
  modelled as `none` (both compare unequal to `"assistant"`).
* The state directory is modelled as a map from transcript path to file
  content; `_state_path` is a deterministic injection from paths to file
  names, so keying the map by the transcript path itself is faithful.
  A state file is `absent`, `corrupt` (unparseable JSON), or a parsed
  record.  Swallowed write errors (`except OSError: pass`) are modelled
  by the successful write, matching the logical state the code tracks.
* An uncaught Python exception terminates the process with a non-zero
  exit status; fallible code is `Except`-valued and `exitCode` maps
  `.error` to exit status 1.
-/

namespace Attention

/-! ## Python string primitives

Python's `str` operations are modelled by structurally recursive
functions over the character list of a `String` (so that every
definition evaluates by kernel reduction).  `Char.isWhitespace` stands
for Python's whitespace class. -/

/-- `str.strip()`. -/
def pyStrip (s : String) : String :=
  ⟨(((s.data.dropWhile Char.isWhitespace).reverse).dropWhile Char.isWhitespace).reverse⟩

/-- `str.rstrip()`. -/
def pyRStrip (s : String) : String :=
  ⟨((s.data.reverse).dropWhile Char.isWhitespace).reverse⟩

/-- `str.rstrip(c)` for a single character. -/
def pyRStripChar (c : Char) (s : String) : String :=
  ⟨((s.data.reverse).dropWhile (fun x => x = c)).reverse⟩

/-- Split a character list at every separator character (Python's
`str.split(sep)` keeps empty pieces). -/
def splitOnPred (p : Char → Bool) : List Char → List (List Char)
  | [] => [[]]
  | c :: rest =>
    let r := splitOnPred p rest
    if p c then [] :: r
    else
      match r with
      | h :: t => (c :: h) :: t
      | [] => [[c]]

/-- `str.split("\n")`. -/
def pySplitLines (s : String) : List String :=
  (splitOnPred (fun c => c = '\n') s.data).map (fun cs => ⟨cs⟩)

/-- `str.split()` — split on whitespace runs, dropping empty pieces. -/
def pyWords (s : String) : List String :=
  ((splitOnPred Char.isWhitespace s.data).filter (fun cs => cs ≠ [])).map (fun cs => ⟨cs⟩)

/-- `str.endswith("?")`. -/
def pyEndsWithQ (s : String) : Bool :=
  s.data.getLast? = some '?'

/-- `c in str` for a single character. -/
def pyContains (s : String) (c : Char) : Bool :=
  s.data.contains c

/-- `str[:n]`. -/
def pyTake (s : String) (n : Nat) : String :=
  ⟨s.data.take n⟩

/-- `sep.join(parts)`. -/
def pyJoin (sep : String) : List String → String
  | [] => ""
  | [s] => s
  | s :: rest => s ++ sep ++ pyJoin sep rest

/-! ## Regex abstraction and configuration (`priorities.toml` schema) -/

structure Regex where
  valid : Bool
  search : String → Bool

/-- `re.search(pattern, text, ...)` inside classify_priority's `try`:
an uncompilable pattern raises `re.error`, which the source catches and
treats as no match. -/
def searchPattern (p : Regex) (text : String) : Bool :=
  p.valid && p.search text

structure TierConfig where
  patterns : Option (List Regex)
  symbol : Option String
  sound : Option String

/-- The tier table used when a tier name is missing: `config.get(tier, {})`. -/
def emptyTier : TierConfig := ⟨none, none, none⟩

/-- `config["project"]["path_pattern"]` as an abstract single-capture-group
regex: `raw` is the configured pattern string (`""` when unset), `valid`
models compilability, and `captures line` lists the group-1 values of
`re.finditer(pattern, line)` in match order. -/
structure PathPattern where
  raw : String
  valid : Bool
  captures : String → List String

structure ProjectConfig where
  path_pattern : PathPattern
  fallback : String

structure Config where
  tiers : List (String × TierConfig)
  project : ProjectConfig
  states : List (String × String)

/-- `config.get(name, {})` for a tier table. -/
def Config.getTier (c : Config) (name : String) : TierConfig :=
  match c.tiers.find? (fun p => p.1 == name) with
  | some p => p.2
  | none => emptyTier

/-- `config.get("states", {}).get(name, d)`. -/
def Config.getState (c : Config) (name d : String) : String :=
  match c.states.find? (fun p => p.1 == name) with
  | some p => p.2
  | none => d

/-! ## `src/classify.py` -/

/-- Tier names in priority order (first match wins). -/
def TIER_ORDER : List String := ["critical", "complete", "update"]

/-- Whether any pattern of `config.get(tier, {}).get("patterns", [])`
matches `text` (an invalid pattern never matches). -/
def tierAnyMatch (config : Config) (tier : String) (text : String) : Bool :=
  ((config.getTier tier).patterns.getD []).any (fun p => searchPattern p text)

/-- `classify_priority`: walk tiers in order, return the first matching
tier name; empty text and no-match both yield `"update"`. -/
def classify_priority (text : String) (config : Config) : String :=
  if text = "" then "update"
  else
    match TIER_ORDER.find? (fun tier => tierAnyMatch config tier text) with
    | some tier => tier
    | none => "update"

/-- The non-empty stripped lines of `text.strip().split("\n")`
(`[l.strip() for l in text.strip().split("\n") if l.strip()]`). -/
def contextLines (text : String) : List String :=
  ((pySplitLines (pyStrip text)).map pyStrip).filter (fun l => l ≠ "")

/-- `line.rstrip().endswith("?")`. -/
def isQuestionLine (l : String) : Bool :=
  pyEndsWithQ (pyRStrip l)

/-- `line.split()[-1]` when `line.split()` is non-empty. -/
def lastWord (l : String) : Option String :=
  (pyWords l).getLast?

/-- `"/" in line or (words and "." in words[-1])`. -/
def isPathLine (l : String) : Bool :=
  pyContains l '/' ||
    (match lastWord l with
     | some w => pyContains w '.'
     | none => false)

/-- `extract_context`: prefer question lines, then path-like lines, then
the last non-empty line, truncated to `max_len`. -/
def extract_context (text : String) (max_len : Nat) : String :=
  if text = "" then ""
  else
    let lines := contextLines text
    if lines.isEmpty then ""
    else
      match lines.find? isQuestionLine with
      | some l => pyTake l max_len
      | none =>
        match lines.find? isPathLine with
        | some l => pyTake l max_len
        | none => pyTake (lines.getLastD "") max_len

/-! ## Transcript model -/

/-- A content block of an assistant message: a `{"type": "text"}` block
carrying its `"text"` field (defaulted to `""`), or anything else
(tool_use, thinking, non-dict). -/
inductive Block
  | text (s : String)
  | other
deriving DecidableEq, Repr

structure Message where
  role : Option String
  content : List Block
deriving DecidableEq, Repr

/-- One parsed transcript line: `json.loads(line.strip())`, which either
fails (`malformed`) or yields a record with optional `type` and
`message` fields. -/
inductive TLine
  | malformed
  | entry (type_ : Option String) (message : Option Message)
deriving DecidableEq, Repr

/-- A raw transcript line together with its parse. -/
structure TranscriptLine where
  raw : String
  parsed : TLine

/-- The readable filesystem: path ↦ lines, `none` when the file is
missing or unreadable. -/
abbrev Fs := String → Option (List TranscriptLine)

/-- The text blocks of a message's content list. -/
def blockTexts (content : List Block) : List String :=
  content.filterMap (fun b =>
    match b with
    | .text s => some s
    | .other => none)

/-- Scan (already-reversed) lines for the most recent assistant record
with at least one text block, as in the `for line in reversed(...)` loop. -/
def scanRev : List TLine → String
  | [] => ""
  | .malformed :: rest => scanRev rest
  | .entry type_ message :: rest =>
    if type_ ≠ some "assistant" then scanRev rest
    else
      match message with
      | none => scanRev rest
      | some m =>
        if m.role ≠ some "assistant" then scanRev rest
        else
          let texts := blockTexts m.content
          if texts.isEmpty then scanRev rest
          else pyJoin "\n" texts

/-- `extract_last_assistant_text`: read the last assistant message text
from the trailing 100 lines of a JSONL transcript. -/
def extract_last_assistant_text (fs : Fs) (transcript_path : String) : String :=
  if transcript_path = "" then ""
  else
    match fs transcript_path with
    | none => ""
    | some lines =>
      let pl := lines.map TranscriptLine.parsed
      scanRev ((pl.drop (pl.length - 100)).reverse)

/-! ## `detect_project` -/

/-- Python exceptions that escape the modelled code. -/
inductive PyErr
  | reError
  | configError
deriving DecidableEq, Repr

/-- `counts[name] = counts.get(name, 0) + 1` on an insertion-ordered dict. -/
def bump (acc : List (String × Nat)) (name : String) : List (String × Nat) :=
  if acc.any (fun p => p.1 == name) then
    acc.map (fun p => if p.1 == name then (p.1, p.2 + 1) else p)
  else acc ++ [(name, 1)]

/-- The insertion-ordered count dict built from the capture stream. -/
def tally (caps : List String) : List (String × Nat) :=
  caps.foldl bump []

/-- `max(counts, key=counts.get)` keeps the current best unless a later
entry is strictly greater, so the first maximum in iteration order wins. -/
def argmaxGo (best : String) (bestCount : Nat) : List (String × Nat) → String
  | [] => best
  | (n, c) :: rest =>
    if c > bestCount then argmaxGo n c rest else argmaxGo best bestCount rest

def argmaxFirst : List (String × Nat) → String
  | [] => ""
  | (n, c) :: rest => argmaxGo n c rest

/-- All group-1 captures of the path pattern across every raw line. -/
def transcriptCaptures (pattern : PathPattern) (lines : List TranscriptLine) : List String :=
  (lines.map (fun l => pattern.captures l.raw)).flatten

/-- `detect_project`: most-referenced capture across raw transcript
lines, `""` when the pattern is unset, the transcript is missing or
unreadable, or nothing matches.  An uncompilable pattern raises
`re.error` (uncaught) once the line loop first reaches `re.finditer`,
i.e. whenever the transcript has at least one line. -/
def detect_project (fs : Fs) (transcript_path : String) (config : Config) :
    Except PyErr String :=
  let pattern := config.project.path_pattern
  if pattern.raw = "" || transcript_path = "" then .ok ""
  else
    match fs transcript_path with
    | none => .ok ""
    | some lines =>
      if !pattern.valid && !lines.isEmpty then .error .reError
      else
        let counts := tally (transcriptCaptures pattern lines)
        .ok (if counts.isEmpty then "" else argmaxFirst counts)

/-! ## `src/state.py` -/

structure StateRecord where
  seen : Bool
  tier : String
  project : String
  detail : String
deriving DecidableEq, Repr

/-- Content of a session's state file. -/
inductive FileContent
  | absent
  | corrupt
  | record (r : StateRecord)
deriving DecidableEq, Repr

/-- The state directory, keyed by transcript path (the on-disk file name
is the injective hash `_state_path`). -/
abbrev Store := String → FileContent

def Store.set (store : Store) (path : String) (v : FileContent) : Store :=
  fun p => if p = path then v else store p

/-- `read_state`: the record, or `none` (Python `{}`) when the path is
empty or the file is missing, unreadable or corrupt. -/
def read_state (store : Store) (transcript_path : String) : Option StateRecord :=
  if transcript_path = "" then none
  else
    match store transcript_path with
    | .record r => some r
    | _ => none

/-- `write_state`: persist `{seen: false, tier, project, detail}`. -/
def write_state (store : Store) (transcript_path tier project detail : String) : Store :=
  if transcript_path = "" then store
  else store.set transcript_path (.record ⟨false, tier, project, detail⟩)

/-- `mark_seen`: flip `seen` to true (the source mutates the loaded dict
in place, persists it, and returns that same dict). -/
def mark_seen (store : Store) (transcript_path : String) : Store × Option StateRecord :=
  if transcript_path = "" then (store, none)
  else
    match store transcript_path with
    | .absent => (store, none)
    | .corrupt => (store, none)
    | .record r =>
      if r.seen then (store, some r)
      else
        let r2 : StateRecord := { r with seen := true }
        (store.set transcript_path (.record r2), some r2)

/-- `clear_state`: remove the file; already-absent is fine. -/
def clear_state (store : Store) (transcript_path : String) : Store :=
  if transcript_path = "" then store
  else store.set transcript_path .absent

/-! ## `src/notify.py` sinks (external side effects, recorded as data) -/

inductive Effect
  | sound (file : String)
  | tab (title : String)
deriving DecidableEq, Repr

/-- `play_sound`: no-op on an empty name; otherwise request playback
(the sink ignores a missing asset). -/
def play_sound (filename : String) : List Effect :=
  if filename = "" then [] else [Effect.sound filename]

def set_tab_title (title : String) : List Effect :=
  [Effect.tab title]

/-! ## `src/router.py` -/

structure Event where
  hook_event_name : String
  cwd : String
  transcript_path : String
  notification_type : String
deriving DecidableEq, Repr

/-- `os.path.basename`: the part after the final slash. -/
def basename (p : String) : String :=
  ⟨(splitOnPred (fun c => c = '/') p.data).getLastD []⟩

/-- `cwd_label`: short label from the working directory. -/
def cwd_label (event : Event) : String :=
  if event.cwd = "" then "claude"
  else
    let b := basename (pyRStripChar '/' event.cwd)
    if b = "" then "claude" else b

/-- `resolve_project`: transcript file paths → fallback → cwd. -/
def resolve_project (fs : Fs) (event : Event) (config : Config) :
    Except PyErr String := do
  let detected ← detect_project fs event.transcript_path config
  if detected ≠ "" then return detected
  else if config.project.fallback ≠ "" then return config.project.fallback
  else return cwd_label event

/-- `tab`: set the tab title to `'project symbol detail'`, with the
unseen marker prefix when requested. -/
def tab (project symbol detail : String) (unseen : Bool) : List Effect :=
  let title := project ++ " " ++ symbol ++ " " ++ detail
  set_tab_title (if unseen then "🟡 " ++ title else title)

def handle_session_start (event : Event) (config : Config) (_fs : Fs) (store : Store) :
    Except PyErr (Store × List Effect) :=
  let store1 := clear_state store event.transcript_path
  .ok (store1, tab (cwd_label event) (config.getState "starting" "↻") "starting" false)

def handle_user_prompt (event : Event) (config : Config) (fs : Fs) (store : Store) :
    Except PyErr (Store × List Effect) := do
  let store1 := (mark_seen store event.transcript_path).1
  let project ← resolve_project fs event config
  return (store1, tab project (config.getState "working" "↻") "working" false)

/-- `handle_stop`: classify the last assistant message and route the
notification. -/
def handle_stop (event : Event) (config : Config) (fs : Fs) (store : Store) :
    Except PyErr (Store × List Effect) := do
  let project ← resolve_project fs event config
  let transcript_path := event.transcript_path
  let text := extract_last_assistant_text fs transcript_path
  let tier := classify_priority text config
  let tierConfig := config.getTier tier
  let symbol := tierConfig.symbol.getD "·"
  let context := extract_context text 100
  let detail :=
    if tier = "critical" then (if context ≠ "" then pyTake context 40 else "needs input")
    else if tier = "complete" then "done"
    else "idle"
  let unseen := tier == "critical" || tier == "complete"
  let store1 :=
    if unseen then write_state store transcript_path tier project detail else store
  return (store1, play_sound (tierConfig.sound.getD "") ++ tab project symbol detail unseen)

def handle_notification (event : Event) (config : Config) (fs : Fs) (store : Store) :
    Except PyErr (Store × List Effect) := do
  let project ← resolve_project fs event config
  let transcript_path := event.transcript_path
  if event.notification_type = "permission_prompt" then
    let store1 := write_state store transcript_path "critical" project "approve?"
    return (store1,
      play_sound ((config.getTier "critical").sound.getD "error.wav") ++
        tab project (config.getState "permission" "⏸") "approve?" true)
  else if event.notification_type = "idle_prompt" then
    return (store, tab project (config.getState "idle" "✓") "ready" true)
  else
    return (store, tab project (config.getState "working" "↻") "working" false)

/-- Result of `json.loads(sys.stdin.read())` inside `main`'s `try`:
either it raises (malformed input) or yields the event object (an empty
stdin yields `{}`, i.e. an event whose fields all default to `""`). -/
inductive Stdin
  | malformed
  | ok (event : Event)

/-- `load_config` as called from `main`: *outside* any try/except, so a
missing or unparseable `priorities.toml` raises and kills the process. -/
def load_config (configFile : Option Config) : Except PyErr Config :=
  match configFile with
  | none => .error .configError
  | some c => .ok c

/-- `HANDLERS.get(hook_event)` dispatch; unknown names are a no-op. -/
def runHandler (name : String) (event : Event) (config : Config) (fs : Fs) (store : Store) :
    Except PyErr (Store × List Effect) :=
  if name = "SessionStart" then handle_session_start event config fs store
  else if name = "UserPromptSubmit" then handle_user_prompt event config fs store
  else if name = "Stop" then handle_stop event config fs store
  else if name = "Notification" then handle_notification event config fs store
  else .ok (store, [])

/-- `main`: parse stdin (returning quietly on bad JSON), load the
config, dispatch. -/
def main (stdin : Stdin) (configFile : Option Config) (fs : Fs) (store : Store) :
    Except PyErr (Store × List Effect) :=
  match stdin with
  | .malformed => .ok (store, [])
  | .ok event => do
    let config ← load_config configFile
    runHandler event.hook_event_name event config fs store

/-- Process exit status: 0 on a clean return, 1 when an exception
escapes `main`. -/
def exitCode (r : Except PyErr (Store × List Effect)) : Nat :=
  match r with
  | .ok _ => 0
  | .error _ => 1

/-! ## Derived definitions used by the claim statements -/

/-- `config` with every uncompilable tier pattern removed. -/
def dropInvalidPatterns (c : Config) : Config :=
  { c with
    tiers := c.tiers.map (fun p =>
      (p.1, { p.2 with
              patterns := p.2.patterns.map (fun ps => ps.filter (fun r => r.valid)) })) }

/-- The text-block contents of a parsed transcript line. -/
def tlineTexts : TLine → List String
  | .entry _ (some m) => blockTexts m.content
  | _ => []

/-- A parsed line that the backward scan stops at: outer type
`"assistant"`, message role `"assistant"`, at least one text block. -/
def isLastAssistantHit (l : TLine) : Bool :=
  match l with
  | .entry t (some m) =>
    t == some "assistant" && m.role == some "assistant" && !(blockTexts m.content).isEmpty
  | _ => false

/-- Project the store out of a handler result (default on error). -/
def okStore (r : Except PyErr (Store × List Effect)) (d : Store) : Store :=
  match r with
  | .ok x => x.1
  | .error _ => d

/-- The tier a Stop event classifies its transcript into. -/
def stopTier (fs : Fs) (config : Config) (event : Event) : String :=
  classify_priority (extract_last_assistant_text fs event.transcript_path) config

/-- The detail string a Stop event computes: truncated context (or
"needs input") for critical, "done" for complete, "idle" otherwise. -/
def stopDetail (fs : Fs) (config : Config) (event : Event) : String :=
  let text := extract_last_assistant_text fs event.transcript_path
  let tier := classify_priority text config
  let context := extract_context text 100
  if tier = "critical" then (if context ≠ "" then pyTake context 40 else "needs input")
  else if tier = "complete" then "done"
  else "idle"

/-- The display symbol a Stop event uses for its classified tier. -/
def stopSymbol (fs : Fs) (config : Config) (event : Event) : String :=
  (config.getTier (stopTier fs config event)).symbol.getD "·"

/-- The fallback chain of project resolution, as the spec words it: the
configured fallback if non-empty, else the basename of the event's
working directory (trailing slashes stripped), else the fixed label
"claude". -/
def fallbackChain (config : Config) (event : Event) : String :=
  if config.project.fallback ≠ "" then config.project.fallback
  else if basename (pyRStripChar '/' event.cwd) ≠ "" then
    basename (pyRStripChar '/' event.cwd)
  else "claude"

/-! ## Concrete scenarios for witnesses and counterexamples -/

def emptyPathPattern : PathPattern := ⟨"", true, fun _ => []⟩

def emptyProject : ProjectConfig := ⟨emptyPathPattern, ""⟩

def cfgEmpty : Config := ⟨[], emptyProject, []⟩

def fsNone : Fs := fun _ => none

def storeEmpty : Store := fun _ => FileContent.absent

def cfgC1 : Config :=
  ⟨[("critical", ⟨some [⟨true, fun t => t == "fail"⟩], none, none⟩),
    ("complete", ⟨some [⟨true, fun t => t == "done"⟩], none, none⟩)],
   emptyProject, []⟩

/-- A config whose only pattern does not compile (and would otherwise
match everything). -/
def cfgC1bad : Config :=
  ⟨[("critical", ⟨some [⟨false, fun _ => true⟩], none, none⟩)], emptyProject, []⟩

def recC2 : StateRecord := ⟨false, "critical", "projA", "needs input"⟩

def storeC2 : Store :=
  fun p => if p = "sessionA" then FileContent.record recC2 else FileContent.absent

def evC3 : Event := ⟨"Stop", "/home/dev/proj", "/tmp/x.jsonl", ""⟩

def evC3unknown : Event := ⟨"PreToolUse", "", "", ""⟩

def cfgC5 : Config :=
  ⟨[("critical",
     ⟨some [⟨true, fun t => t == "Need approval?"⟩], some "‼", some "alert.wav"⟩)],
   ⟨emptyPathPattern, "web"⟩, []⟩

def msgC5 : Message := ⟨some "assistant", [Block.text "Need approval?"]⟩

def tlC5 : TranscriptLine := ⟨"", TLine.entry (some "assistant") (some msgC5)⟩

def fsC5 : Fs := fun p => if p = "t1" then some [tlC5] else none

def evC5 : Event := ⟨"Stop", "", "t1", ""⟩

/-- The state directory right after the C5 Stop event. -/
def storeAfterStopC5 : Store := okStore (handle_stop evC5 cfgC5 fsC5 storeEmpty) storeEmpty

def msgC6 : Message :=
  ⟨some "assistant", [Block.text "Build complete.", Block.other, Block.text "All tests pass."]⟩

def tlC6 : TranscriptLine := ⟨"", TLine.entry (some "assistant") (some msgC6)⟩

def preC6 : List TranscriptLine :=
  [⟨"", TLine.malformed⟩, ⟨"", TLine.entry (some "user") none⟩]

def fsC6 : Fs := fun p => if p = "t6" then some (preC6 ++ [tlC6]) else none

def lines100 : List TranscriptLine := List.replicate 100 ⟨"", TLine.malformed⟩

def fsC6a : Fs := fun p => if p = "w" then some (preC6 ++ lines100) else none

def fsC6b : Fs := fun p => if p = "w" then some lines100 else none

/-- A compilable pattern whose capture group can match the empty string
(e.g. `x(y?)` against the line `xz`). -/
def patC7 : PathPattern := ⟨"x(y?)", true, fun l => if l = "xz" then [""] else []⟩

def cfgC7 : Config := ⟨[], ⟨patC7, "fb"⟩, []⟩

def fsC7 : Fs := fun p => if p = "t7" then some [⟨"xz", TLine.malformed⟩] else none

def evC7 : Event := ⟨"Stop", "/home/u/dir", "t7", ""⟩

def patC7w : PathPattern :=
  ⟨"/projects/([a-z-]+)/", true,
   fun l => if l = "A" then ["proj-A"] else if l = "B" then ["proj-B"] else []⟩

def cfgC7w : Config := ⟨[], ⟨patC7w, ""⟩, []⟩

/-- proj-A appears 3 times, proj-B 5 times. -/
def linesC7w : List TranscriptLine :=
  [⟨"B", TLine.malformed⟩, ⟨"A", TLine.malformed⟩, ⟨"B", TLine.malformed⟩,
   ⟨"A", TLine.malformed⟩, ⟨"B", TLine.malformed⟩, ⟨"A", TLine.malformed⟩,
   ⟨"B", TLine.malformed⟩, ⟨"B", TLine.malformed⟩]

def fsC7w : Fs := fun p => if p = "t7" then some linesC7w else none

def evC7w : Event := ⟨"Stop", "", "t7", ""⟩

def storeC9 : Store :=
  fun p => if p = "s9" then FileContent.record ⟨true, "update", "p", "idle"⟩
           else FileContent.corrupt

/-- A config defining a tier under a name outside the hardcoded order. -/
def cfgC10 : Config :=
  ⟨[("urgent", ⟨some [⟨true, fun _ => true⟩], none, none⟩)], emptyProject, []⟩

/-- The spec's own example: a question line followed by a file-path line. -/
def textC8 : String := "Should I proceed with the migration?\nSee src/main.py for details."

def textC8b : String := "ok\nsee src/main.py now"

def textC8c : String := "alpha\nbeta"

/-! # Helper lemmas -/

theorem find?_eq_of_first {α : Type} (p : α → Bool) :
    ∀ (l : List α) (i : Nat) (h : i < l.length),
      p l[i] = true →
      (∀ j (hj : j < l.length), j < i → p l[j] = false) →
      l.find? p = some l[i]
  | [], i, h, _, _ => absurd h (by simp)
  | a :: t, 0, _, hp, _ => by
      rw [List.find?_cons_of_pos _ (by simpa using hp)]
      simp
  | a :: t, i + 1, h, hp, hbefore => by
      have ha : p a = false := by
        simpa using hbefore 0 (by simp) (Nat.succ_pos i)
      have ih := find?_eq_of_first p t i (by simpa using h) (by simpa using hp)
        (fun j hj hji => by
          simpa using hbefore (j + 1) (by simpa using Nat.succ_lt_succ hj)
            (Nat.succ_lt_succ hji))
      rw [List.find?_cons_of_neg _ (by simp [ha]), ih]
      simp

theorem find?_eq_some_of_split {α : Type} (p : α → Bool) (pre : List α) (x : α)
    (post : List α) (hpre : ∀ y ∈ pre, p y = false) (hx : p x = true) :
    (pre ++ x :: post).find? p = some x := by
  induction pre with
  | nil => rw [List.nil_append, List.find?_cons_of_pos _ hx]
  | cons a t ih =>
      have ha : p a = false := hpre a (by simp)
      have ht := ih (fun y hy => hpre y (by simp [hy]))
      rw [List.cons_append, List.find?_cons_of_neg _ (by simp [ha])]
      exact ht

theorem find?_congr_mem {α : Type} (p q : α → Bool) :
    ∀ l : List α, (∀ a ∈ l, p a = q a) → l.find? p = l.find? q
  | [], _ => rfl
  | a :: t, h => by
      have ha := h a (by simp)
      cases hpa : p a with
      | true =>
        have hqa : q a = true := by rw [← ha]; exact hpa
        rw [List.find?_cons_of_pos _ hpa, List.find?_cons_of_pos _ hqa]
      | false =>
        have hqa : q a = false := by rw [← ha]; exact hpa
        rw [List.find?_cons_of_neg _ (by simp [hpa]), List.find?_cons_of_neg _ (by simp [hqa])]
        exact find?_congr_mem p q t (fun b hb => h b (by simp [hb]))

theorem any_filter_valid (l : List Regex) (text : String) :
    (l.filter (fun r => r.valid)).any (fun p => searchPattern p text) =
      l.any (fun p => searchPattern p text) := by
  induction l with
  | nil => rfl
  | cons r t ih =>
      by_cases h : r.valid
      · simp [List.filter_cons, h, ih]
      · have hr : searchPattern r text = false := by
          simp [searchPattern, h]
        simp [List.filter_cons, h, ih, hr]

theorem find?_map_fst_preserving (f : String × TierConfig → String × TierConfig)
    (hf : ∀ p, (f p).1 = p.1) (name : String) :
    ∀ l : List (String × TierConfig),
      (l.map f).find? (fun p => p.1 == name) = (l.find? (fun p => p.1 == name)).map f
  | [] => rfl
  | a :: t => by
      cases h : (a.1 == name) with
      | true =>
        have hfa : ((f a).1 == name) = true := by rw [hf]; exact h
        simp [List.find?, hfa, h]
      | false =>
        have hfa : ((f a).1 == name) = false := by rw [hf]; exact h
        simp only [List.map_cons, List.find?, hfa, h]
        exact find?_map_fst_preserving f hf name t

theorem getTier_dropInvalid (c : Config) (t : String) :
    (dropInvalidPatterns c).getTier t =
      { (c.getTier t) with
        patterns := (c.getTier t).patterns.map (fun ps => ps.filter (fun r => r.valid)) } := by
  simp only [Config.getTier, dropInvalidPatterns]
  rw [find?_map_fst_preserving
    (fun p =>
      (p.1, { p.2 with
              patterns := p.2.patterns.map (fun ps => ps.filter (fun r => r.valid)) }))
    (fun p => rfl) t c.tiers]
  cases c.tiers.find? (fun p => p.1 == t) with
  | none => rfl
  | some p => rfl

theorem tierAnyMatch_dropInvalid (c : Config) (t text : String) :
    tierAnyMatch (dropInvalidPatterns c) t text = tierAnyMatch c t text := by
  unfold tierAnyMatch
  rw [getTier_dropInvalid]
  cases hps : (c.getTier t).patterns with
  | none => rfl
  | some ps =>
      simp only [Option.map_some, Option.getD_some]
      have hone : ∀ a : Regex, (a.valid && searchPattern a text) = searchPattern a text :=
        fun a => by cases hv : a.valid <;> simp [searchPattern, hv]
      simp [List.any_filter, hone]

theorem scanRev_skip (l : TLine) (rest : List TLine) (h : isLastAssistantHit l = false) :
    scanRev (l :: rest) = scanRev rest := by
  cases l with
  | malformed => rfl
  | entry t msg =>
    cases msg with
    | none =>
      by_cases ht : t = some "assistant" <;> simp [scanRev, ht]
    | some m =>
      by_cases ht : t = some "assistant"
      · by_cases hr : m.role = some "assistant"
        · have htx : (blockTexts m.content).isEmpty = true := by
            simp [isLastAssistantHit, ht, hr] at h
            simpa using h
          simp [scanRev, ht, hr, htx]
        · simp [scanRev, ht, hr]
      · simp [scanRev, ht]

theorem scanRev_hit (l : TLine) (rest : List TLine) (h : isLastAssistantHit l = true) :
    scanRev (l :: rest) = pyJoin "\n" (tlineTexts l) := by
  cases l with
  | malformed => simp [isLastAssistantHit] at h
  | entry t msg =>
    cases msg with
    | none => simp [isLastAssistantHit] at h
    | some m =>
      simp only [isLastAssistantHit, Bool.and_eq_true, beq_iff_eq,
        Bool.not_eq_true', List.isEmpty_eq_false] at h
      obtain ⟨⟨ht, hr⟩, htx⟩ := h
      have htx2 : (blockTexts m.content).isEmpty = false := by
        simpa using htx
      simp [scanRev, tlineTexts, ht, hr, htx2]

theorem scanRev_all_skip :
    ∀ L : List TLine, (∀ l ∈ L, isLastAssistantHit l = false) → scanRev L = ""
  | [], _ => rfl
  | l :: rest, h => by
      rw [scanRev_skip l rest (h l (by simp))]
      exact scanRev_all_skip rest (fun x hx => h x (by simp [hx]))

theorem count_append_singleton (caps : List String) (a n : String) :
    (caps ++ [a]).count n = caps.count n + (if n = a then 1 else 0) := by
  rw [List.count_append]
  by_cases hna : n = a <;> simp [hna, List.count_singleton]

theorem tally_spec (caps : List String) :
    (∀ p ∈ tally caps, p.1 ∈ caps ∧ p.2 = caps.count p.1) ∧
    (∀ n ∈ caps, (n, caps.count n) ∈ tally caps) ∧
    List.Pairwise (fun p q : String × Nat => caps.indexOf p.1 < caps.indexOf q.1)
      (tally caps) := by
  induction caps using List.reverseRecOn with
  | nil => exact ⟨by simp [tally], by simp, by simp [tally]⟩
  | append_singleton caps a ih =>
    obtain ⟨ih1, ih2, ih3⟩ := ih
    have htally : tally (caps ++ [a]) = bump (tally caps) a := by
      simp [tally, List.foldl_append]
    by_cases hmem : a ∈ caps
    · -- increment branch
      have hkey : (tally caps).any (fun p => p.1 == a) = true :=
        List.any_eq_true.mpr ⟨(a, caps.count a), ih2 a hmem, by simp⟩
      have hbump : tally (caps ++ [a]) =
          (tally caps).map (fun p => if p.1 == a then (p.1, p.2 + 1) else p) := by
        rw [htally]; simp [bump, hkey]
      refine ⟨?_, ?_, ?_⟩
      · intro p hp
        rw [hbump] at hp
        obtain ⟨q, hq, hfq⟩ := List.mem_map.mp hp
        obtain ⟨hq1, hq2⟩ := ih1 q hq
        by_cases hqa : q.1 = a
        · rw [if_pos (by simp [hqa])] at hfq
          subst hfq
          refine ⟨List.mem_append_left _ hq1, ?_⟩
          rw [count_append_singleton, if_pos hqa, ← hq2, hqa, ← hqa]
        · rw [if_neg (by simp [hqa])] at hfq
          subst hfq
          refine ⟨List.mem_append_left _ hq1, ?_⟩
          rw [count_append_singleton, if_neg hqa, hq2]
          omega
      · intro n hn
        by_cases hna : n = a
        · subst hna
          have : (n, caps.count n) ∈ tally caps := ih2 n hmem
          rw [hbump]
          refine List.mem_map.mpr ⟨(n, caps.count n), this, ?_⟩
          rw [if_pos (by simp)]
          rw [count_append_singleton, if_pos rfl]
        · have hn2 : n ∈ caps := by
            rcases List.mem_append.mp hn with h | h
            · exact h
            · simp at h; exact absurd h hna
          rw [hbump]
          refine List.mem_map.mpr ⟨(n, caps.count n), ih2 n hn2, ?_⟩
          rw [if_neg (by simp [hna])]
          rw [count_append_singleton, if_neg hna]
          simp
      · rw [hbump]
        rw [List.pairwise_map]
        have hf1 : ∀ p : String × Nat,
            ((fun p => if p.1 == a then (p.1, p.2 + 1) else p) p).1 = p.1 := by
          intro p; by_cases h : p.1 == a <;> simp [h]
        refine ih3.imp_of_mem ?_
        intro p q hp hq hpq
        rw [hf1, hf1]
        have hp1 : p.1 ∈ caps := (ih1 p hp).1
        have hq1 : q.1 ∈ caps := (ih1 q hq).1
        rw [List.indexOf_append_of_mem hp1, List.indexOf_append_of_mem hq1]
        exact hpq
    · -- fresh-key branch
      have hkey : (tally caps).any (fun p => p.1 == a) = false := by
        by_contra h
        rw [Bool.not_eq_false, List.any_eq_true] at h
        obtain ⟨p, hp, hpa⟩ := h
        rw [beq_iff_eq] at hpa
        exact hmem (hpa ▸ (ih1 p hp).1)
      have hbump : tally (caps ++ [a]) = tally caps ++ [(a, 1)] := by
        rw [htally]; simp [bump, hkey]
      have hcnt0 : caps.count a = 0 := List.count_eq_zero.mpr hmem
      refine ⟨?_, ?_, ?_⟩
      · intro p hp
        rw [hbump] at hp
        rcases List.mem_append.mp hp with h | h
        · obtain ⟨hp1, hp2⟩ := ih1 p h
          have hpa : p.1 ≠ a := fun he => hmem (he ▸ hp1)
          refine ⟨List.mem_append_left _ hp1, ?_⟩
          rw [count_append_singleton, if_neg hpa, hp2]
          omega
        · simp at h
          subst h
          refine ⟨List.mem_append_right _ (by simp), ?_⟩
          simp [count_append_singleton, hcnt0]
      · intro n hn
        by_cases hna : n = a
        · subst hna
          rw [hbump]
          refine List.mem_append_right _ ?_
          simp [count_append_singleton, hcnt0]
        · have hn2 : n ∈ caps := by
            rcases List.mem_append.mp hn with h | h
            · exact h
            · simp at h; exact absurd h hna
          rw [hbump]
          refine List.mem_append_left _ ?_
          have := ih2 n hn2
          rw [count_append_singleton, if_neg hna]
          simpa using this
      · rw [hbump, List.pairwise_append]
        refine ⟨?_, by simp, ?_⟩
        · refine ih3.imp_of_mem ?_
          intro p q hp hq hpq
          have hp1 : p.1 ∈ caps := (ih1 p hp).1
          have hq1 : q.1 ∈ caps := (ih1 q hq).1
          rw [List.indexOf_append_of_mem hp1, List.indexOf_append_of_mem hq1]
          exact hpq
        · intro p hp q hq
          simp at hq
          subst hq
          have hp1 : p.1 ∈ caps := (ih1 p hp).1
          rw [List.indexOf_append_of_mem hp1, List.indexOf_append_of_not_mem hmem]
          have h1 : caps.indexOf p.1 < caps.length := List.indexOf_lt_length.mpr hp1
          have h2 : List.indexOf a [a] = 0 := by simp
          omega

theorem argmaxGo_all_le (best : String) (bc : Nat) :
    ∀ l : List (String × Nat), (∀ p ∈ l, p.2 ≤ bc) → argmaxGo best bc l = best
  | [], _ => rfl
  | (n, c) :: rest, h => by
      have hc : c ≤ bc := h (n, c) (by simp)
      have hnc : ¬(c > bc) := by omega
      simp only [argmaxGo, if_neg hnc]
      exact argmaxGo_all_le best bc rest (fun p hp => h p (by simp [hp]))

theorem argmaxGo_split (w : String) (c : Nat) (l₂ : List (String × Nat))
    (hl₂ : ∀ p ∈ l₂, p.2 ≤ c) :
    ∀ (l₁ : List (String × Nat)) (best : String) (bc : Nat),
      bc < c → (∀ p ∈ l₁, p.2 < c) →
      argmaxGo best bc (l₁ ++ (w, c) :: l₂) = w
  | [], best, bc, hbc, _ => by
      simp only [List.nil_append, argmaxGo, if_pos hbc]
      exact argmaxGo_all_le w c l₂ hl₂
  | (n, d) :: l₁, best, bc, hbc, h₁ => by
      by_cases hd : d > bc
      · simp only [List.cons_append, argmaxGo, if_pos hd]
        exact argmaxGo_split w c l₂ hl₂ l₁ n d (h₁ (n, d) (by simp))
          (fun p hp => h₁ p (by simp [hp]))
      · simp only [List.cons_append, argmaxGo, if_neg hd]
        exact argmaxGo_split w c l₂ hl₂ l₁ best bc hbc (fun p hp => h₁ p (by simp [hp]))

theorem argmaxFirst_split (l₁ : List (String × Nat)) (w : String) (c : Nat)
    (l₂ : List (String × Nat)) (h₁ : ∀ p ∈ l₁, p.2 < c) (h₂ : ∀ p ∈ l₂, p.2 ≤ c) :
    argmaxFirst (l₁ ++ (w, c) :: l₂) = w := by
  cases l₁ with
  | nil =>
      simp only [List.nil_append, argmaxFirst]
      exact argmaxGo_all_le w c l₂ h₂
  | cons p l₁ =>
      obtain ⟨n, d⟩ := p
      simp only [List.cons_append, argmaxFirst]
      exact argmaxGo_split w c l₂ h₂ l₁ n d (h₁ (n, d) (by simp))
        (fun q hq => h₁ q (by simp [hq]))

theorem argmaxFirst_tally (caps : List String) (w : String)
    (hw : w ∈ caps)
    (hmax : ∀ n ∈ caps, caps.count n ≤ caps.count w)
    (htie : ∀ n ∈ caps, caps.count n = caps.count w → caps.indexOf w ≤ caps.indexOf n) :
    argmaxFirst (tally caps) = w := by
  obtain ⟨t1, t2, t3⟩ := tally_spec caps
  have hwpair : (w, caps.count w) ∈ tally caps := t2 w hw
  obtain ⟨L₁, L₂, hsplit⟩ := List.append_of_mem hwpair
  have h₁ : ∀ p ∈ L₁, p.2 < caps.count w := by
    intro p hp
    have hpmem : p ∈ tally caps := by
      rw [hsplit]; exact List.mem_append_left _ hp
    obtain ⟨hpc, hpcount⟩ := t1 p hpmem
    have hle : caps.count p.1 ≤ caps.count w := hmax p.1 hpc
    have hlt : caps.indexOf p.1 < caps.indexOf w := by
      rw [hsplit] at t3
      exact (List.pairwise_append.mp t3).2.2 p hp (w, caps.count w) (by simp)
    by_contra hge
    have heq : p.2 = caps.count w := by omega
    rw [hpcount] at heq
    have := htie p.1 hpc heq
    omega
  have h₂ : ∀ p ∈ L₂, p.2 ≤ caps.count w := by
    intro p hp
    have hpmem : p ∈ tally caps := by
      rw [hsplit]; exact List.mem_append_right _ (by simp [hp])
    obtain ⟨hpc, hpcount⟩ := t1 p hpmem
    rw [hpcount]
    exact hmax p.1 hpc
  rw [hsplit]
  exact argmaxFirst_split L₁ w (caps.count w) L₂ h₁ h₂

theorem detect_project_empty_pattern (fs : Fs) (path : String) (config : Config)
    (h : config.project.path_pattern.raw = "") :
    detect_project fs path config = Except.ok "" := by
  simp [detect_project, h]

theorem detect_project_empty_path (fs : Fs) (config : Config) :
    detect_project fs "" config = Except.ok "" := by
  simp [detect_project]

theorem detect_project_no_captures (fs : Fs) (path : String) (config : Config)
    (lines : List TranscriptLine)
    (hvalid : config.project.path_pattern.valid = true)
    (hfs : fs path = some lines)
    (hcaps : transcriptCaptures config.project.path_pattern lines = []) :
    detect_project fs path config = Except.ok "" := by
  by_cases hraw : config.project.path_pattern.raw = ""
  · exact detect_project_empty_pattern fs path config hraw
  · by_cases hpath : path = ""
    · subst hpath; exact detect_project_empty_path fs config
    · simp [detect_project, hraw, hpath, hfs, hvalid, hcaps, tally]

theorem detect_project_found (fs : Fs) (path : String) (config : Config)
    (lines : List TranscriptLine) (w : String)
    (hvalid : config.project.path_pattern.valid = true)
    (hraw : config.project.path_pattern.raw ≠ "")
    (hpath : path ≠ "")
    (hfs : fs path = some lines)
    (hw : w ∈ transcriptCaptures config.project.path_pattern lines)
    (hmax : ∀ n ∈ transcriptCaptures config.project.path_pattern lines,
      (transcriptCaptures config.project.path_pattern lines).count n ≤
        (transcriptCaptures config.project.path_pattern lines).count w)
    (htie : ∀ n ∈ transcriptCaptures config.project.path_pattern lines,
      (transcriptCaptures config.project.path_pattern lines).count n =
        (transcriptCaptures config.project.path_pattern lines).count w →
      (transcriptCaptures config.project.path_pattern lines).indexOf w ≤
        (transcriptCaptures config.project.path_pattern lines).indexOf n) :
    detect_project fs path config = Except.ok w := by
  have hargmax := argmaxFirst_tally (transcriptCaptures config.project.path_pattern lines)
    w hw hmax htie
  have hne : tally (transcriptCaptures config.project.path_pattern lines) ≠ [] := by
    obtain ⟨_, t2, _⟩ := tally_spec (transcriptCaptures config.project.path_pattern lines)
    exact List.ne_nil_of_mem (t2 w hw)
  simp [detect_project, hraw, hpath, hfs, hvalid, hne, hargmax]

theorem cwd_label_eq (event : Event) :
    cwd_label event =
      (if basename (pyRStripChar '/' event.cwd) ≠ "" then
        basename (pyRStripChar '/' event.cwd)
      else "claude") := by
  unfold cwd_label
  by_cases hc : event.cwd = ""
  · rw [if_pos hc, hc]
    decide
  · rw [if_neg hc]
    by_cases hb : basename (pyRStripChar '/' event.cwd) = "" <;> simp [hb]

theorem resolve_project_fallback (fs : Fs) (event : Event) (config : Config)
    (h : detect_project fs event.transcript_path config = Except.ok "") :
    resolve_project fs event config = Except.ok (fallbackChain config event) := by
  unfold resolve_project
  rw [h]
  show (if ("" : String) ≠ "" then pure "" else
    if config.project.fallback ≠ "" then pure config.project.fallback
    else pure (cwd_label event) : Except PyErr String) = Except.ok (fallbackChain config event)
  rw [if_neg (by simp)]
  by_cases hf : config.project.fallback = ""
  · rw [if_neg (by simpa using hf)]
    unfold fallbackChain
    rw [if_neg (by simpa using hf), cwd_label_eq]
    rfl
  · rw [if_pos hf]
    unfold fallbackChain
    rw [if_pos hf]
    rfl

theorem detect_project_missing (fs : Fs) (path : String) (config : Config)
    (h : fs path = none) : detect_project fs path config = Except.ok "" := by
  by_cases hr : config.project.path_pattern.raw = ""
  · simp [detect_project, hr]
  · by_cases hp : path = ""
    · simp [detect_project, hr, hp]
    · simp [detect_project, hr, hp, h]

theorem resolve_ok_of_missing (fs : Fs) (event : Event) (config : Config)
    (h : fs event.transcript_path = none) :
    ∃ v, resolve_project fs event config = Except.ok v := by
  unfold resolve_project
  rw [detect_project_missing fs _ config h]
  by_cases hf : config.project.fallback = ""
  · exact ⟨cwd_label event, by rw [hf]; rfl⟩
  · refine ⟨config.project.fallback, ?_⟩
    show (if ("" : String) ≠ "" then pure "" else
      if config.project.fallback ≠ "" then pure config.project.fallback
      else pure (cwd_label event) : Except PyErr String) = Except.ok config.project.fallback
    rw [if_neg (by simp), if_pos hf]
    rfl

theorem handle_stop_ok (event : Event) (config : Config) (fs : Fs) (store : Store)
    (v : String) (h : resolve_project fs event config = Except.ok v) :
    ∃ x, handle_stop event config fs store = Except.ok x := by
  unfold handle_stop
  rw [h]
  exact ⟨_, rfl⟩

theorem handle_user_prompt_ok (event : Event) (config : Config) (fs : Fs) (store : Store)
    (v : String) (h : resolve_project fs event config = Except.ok v) :
    ∃ x, handle_user_prompt event config fs store = Except.ok x := by
  unfold handle_user_prompt
  rw [h]
  exact ⟨_, rfl⟩

theorem handle_notification_isOk (event : Event) (config : Config) (fs : Fs) (store : Store)
    (v : String) (h : resolve_project fs event config = Except.ok v) :
    (handle_notification event config fs store).isOk = true := by
  unfold handle_notification
  rw [h]
  by_cases h1 : event.notification_type = "permission_prompt" <;>
    by_cases h2 : event.notification_type = "idle_prompt" <;>
      simp [Bind.bind, Except.bind, pure, Except.pure, Except.isOk, Except.toBool, h1, h2]

theorem exitCode_eq_zero_of_isOk (r : Except PyErr (Store × List Effect))
    (h : r.isOk = true) : exitCode r = 0 := by
  cases r with
  | ok x => rfl
  | error e => simp [Except.isOk, Except.toBool] at h

theorem drop_append_le {α : Type} :
    ∀ (k : Nat) (ls tl : List α), k ≤ ls.length → (ls ++ tl).drop k = ls.drop k ++ tl
  | 0, ls, tl, _ => rfl
  | k + 1, [], tl, h => absurd h (by simp)
  | k + 1, a :: ls, tl, h => by
      simp only [List.cons_append, List.drop_succ_cons]
      exact drop_append_le k ls tl (by simpa using h)

/-! # Claim theorems -/

/-- C1: `classify_priority` evaluates the fixed tier order and returns
the first tier with a matching pattern (no lower tier is consulted once
one matches); empty text returns `"update"` immediately; an
uncompilable pattern is treated as never matching; and when nothing
matches, the default `"update"` is returned. -/
theorem C1_classify_priority :
    (∀ config : Config, classify_priority "" config = "update") ∧
    (∀ (text : String) (config : Config) (i : Nat) (h : i < TIER_ORDER.length),
      text ≠ "" →
      tierAnyMatch config TIER_ORDER[i] text = true →
      (∀ j (hj : j < TIER_ORDER.length), j < i →
        tierAnyMatch config TIER_ORDER[j] text = false) →
      classify_priority text config = TIER_ORDER[i]) ∧
    (∀ (text : String) (config : Config),
      (∀ tier ∈ TIER_ORDER, tierAnyMatch config tier text = false) →
      classify_priority text config = "update") ∧
    (∀ (text : String) (config : Config),
      classify_priority text (dropInvalidPatterns config) =
        classify_priority text config) := by
  refine ⟨fun config => rfl, ?_, ?_, ?_⟩
  · intro text config i h htext hmatch hbefore
    have hfind :=
      find?_eq_of_first (fun tier => tierAnyMatch config tier text) TIER_ORDER i h
        hmatch hbefore
    simp [classify_priority, htext, hfind]
  · intro text config hnone
    by_cases htext : text = ""
    · simp [classify_priority, htext]
    · have hfind : TIER_ORDER.find? (fun tier => tierAnyMatch config tier text) = none :=
        List.find?_eq_none.mpr (fun tier ht => by simp [hnone tier ht])
      simp [classify_priority, htext, hfind]
  · intro text config
    have hfun :
        TIER_ORDER.find? (fun tier => tierAnyMatch (dropInvalidPatterns config) tier text) =
          TIER_ORDER.find? (fun tier => tierAnyMatch config tier text) :=
      find?_congr_mem _ _ TIER_ORDER
        (fun t _ => tierAnyMatch_dropInvalid config t text)
    simp [classify_priority, hfun]

theorem C1_witness :
    classify_priority "" cfgC1 = "update" ∧
    classify_priority "done" cfgC1 = "complete" ∧
    classify_priority "zzz" cfgC1 = "update" ∧
    classify_priority "boom" (dropInvalidPatterns cfgC1bad) =
      classify_priority "boom" cfgC1bad := by
  refine ⟨C1_classify_priority.1 cfgC1, ?_, ?_, C1_classify_priority.2.2.2 "boom" cfgC1bad⟩
  · exact C1_classify_priority.2.1 "done" cfgC1 1 (by decide) (by decide) (by decide)
      (fun j hj hji => by
        have hj0 : j = 0 := by omega
        subst hj0
        show tierAnyMatch cfgC1 "critical" "done" = false
        decide)
  · exact C1_classify_priority.2.2.1 "zzz" cfgC1 (by decide)

/-- C10: for every text and configuration, `classify_priority` returns
one of the three hardcoded tier names, and its result depends only on
the tier tables of those three names — tiers configured under other
names are never consulted and never returned. -/
theorem C10_fixed_tier_names :
    (∀ (text : String) (config : Config),
      classify_priority text config = "critical" ∨
      classify_priority text config = "complete" ∨
      classify_priority text config = "update") ∧
    (∀ (text : String) (c₁ c₂ : Config),
      (∀ t ∈ TIER_ORDER, c₁.getTier t = c₂.getTier t) →
      classify_priority text c₁ = classify_priority text c₂) := by
  constructor
  · intro text config
    by_cases htext : text = ""
    · simp [classify_priority, htext]
    · cases hfind : TIER_ORDER.find? (fun tier => tierAnyMatch config tier text) with
      | none => simp [classify_priority, htext, hfind]
      | some tier =>
        have hmem : tier = "critical" ∨ tier = "complete" ∨ tier = "update" := by
          simpa [TIER_ORDER] using List.mem_of_find?_eq_some hfind
        have hres : classify_priority text config = tier := by
          simp [classify_priority, htext, hfind]
        rw [hres]
        exact hmem
  · intro text c₁ c₂ hagree
    have hfind :
        TIER_ORDER.find? (fun tier => tierAnyMatch c₁ tier text) =
          TIER_ORDER.find? (fun tier => tierAnyMatch c₂ tier text) :=
      find?_congr_mem _ _ TIER_ORDER
        (fun t ht => by unfold tierAnyMatch; rw [hagree t ht])
    simp [classify_priority, hfind]

theorem C10_witness :
    (classify_priority "anything" cfgC10 = "critical" ∨
     classify_priority "anything" cfgC10 = "complete" ∨
     classify_priority "anything" cfgC10 = "update") ∧
    classify_priority "anything" cfgC10 = classify_priority "anything" cfgEmpty := by
  refine ⟨C10_fixed_tier_names.1 "anything" cfgC10,
    C10_fixed_tier_names.2 "anything" cfgC10 cfgEmpty ?_⟩
  intro t ht
  fin_cases ht <;> rfl

/-- C9: `read_state` returns the stored record when the state file
exists and parses, and the empty record when the file is missing,
unreadable, or corrupt — corrupt state is treated exactly like the
absence of a record and never raises. -/
theorem C9_read_state :
    (∀ (store : Store) (path : String) (r : StateRecord),
      path ≠ "" → store path = FileContent.record r → read_state store path = some r) ∧
    (∀ (store : Store) (path : String),
      store path = FileContent.absent → read_state store path = none) ∧
    (∀ (store : Store) (path : String),
      store path = FileContent.corrupt → read_state store path = none) := by
  refine ⟨?_, ?_, ?_⟩
  · intro store path r hp hs
    simp [read_state, hp, hs]
  · intro store path hs
    by_cases hp : path = "" <;> simp [read_state, hp, hs]
  · intro store path hs
    by_cases hp : path = "" <;> simp [read_state, hp, hs]

theorem C9_witness :
    read_state storeC9 "s9" = some ⟨true, "update", "p", "idle"⟩ ∧
    read_state storeC9 "other" = none := by
  constructor
  · exact C9_read_state.1 storeC9 "s9" ⟨true, "update", "p", "idle"⟩ (by decide) (by decide)
  · exact C9_read_state.2.2 storeC9 "other" (by decide)

/-- C2 counterexample: on a stored record with `seen = false`,
`mark_seen` does not return the pre-mutation record — the source
mutates the loaded dict in place before returning it, so the returned
record already has `seen = true` (tier, project and detail are the
prior ones). -/
theorem C2_counterexample :
    storeC2 "sessionA" = FileContent.record recC2 ∧
    recC2.seen = false ∧
    (mark_seen storeC2 "sessionA").2 ≠ some recC2 ∧
    (mark_seen storeC2 "sessionA").2 = some { recC2 with seen := true } := by
  decide

/-- C2 (amended): for a stored record with `seen = false`, `mark_seen`
persists the record with `seen` flipped to true and returns that
post-mutation record, which carries the prior tier, project and detail
but has `seen` already true. -/
theorem C2_mark_seen_amended :
    ∀ (store : Store) (path : String) (r : StateRecord),
      path ≠ "" → store path = FileContent.record r → r.seen = false →
      mark_seen store path =
        (Store.set store path (FileContent.record { r with seen := true }),
         some { r with seen := true }) := by
  intro store path r hp hs hseen
  simp [mark_seen, hp, hs, hseen]

theorem C2_witness :
    mark_seen storeC2 "sessionA" =
      (Store.set storeC2 "sessionA" (FileContent.record { recC2 with seen := true }),
       some { recC2 with seen := true }) :=
  C2_mark_seen_amended storeC2 "sessionA" recC2 (by decide) (by decide) (by decide)

/-- C4: calling `mark_seen` twice in sequence with no intervening write
is idempotent — the second call leaves the store unchanged and returns
exactly the post-state of the first call (the stored record after the
first call, i.e. with `seen = true` when a flip happened). -/
theorem C4_mark_seen_idempotent (store : Store) (path : String) :
    mark_seen (mark_seen store path).1 path =
      ((mark_seen store path).1, read_state (mark_seen store path).1 path) := by
  by_cases hp : path = ""
  · subst hp; simp [mark_seen, read_state]
  · cases hs : store path with
    | absent => simp [mark_seen, read_state, hp, hs]
    | corrupt => simp [mark_seen, read_state, hp, hs]
    | record r =>
      by_cases hseen : r.seen = true
      · simp [mark_seen, read_state, hp, hs, hseen]
      · simp [mark_seen, read_state, hp, hs, hseen, Store.set]

/-- C8: `extract_context` splits the text into non-empty trimmed lines
and returns, first-match-wins: the first line ending in `?`, else the
first line containing `/` or whose last whitespace-delimited word
contains `.`, else the last non-empty line — always truncated to
`max_len`; empty or all-whitespace input yields the empty string. -/
theorem C8_extract_context :
    (∀ max_len : Nat, extract_context "" max_len = "") ∧
    (∀ (text : String) (max_len : Nat), pyStrip text = "" →
      extract_context text max_len = "") ∧
    (∀ (text : String) (max_len : Nat) (pre : List String) (l : String) (post : List String),
      contextLines text = pre ++ l :: post →
      isQuestionLine l = true →
      (∀ x ∈ pre, isQuestionLine x = false) →
      extract_context text max_len = pyTake l max_len) ∧
    (∀ (text : String) (max_len : Nat) (pre : List String) (l : String) (post : List String),
      contextLines text = pre ++ l :: post →
      (∀ x ∈ contextLines text, isQuestionLine x = false) →
      isPathLine l = true →
      (∀ x ∈ pre, isPathLine x = false) →
      extract_context text max_len = pyTake l max_len) ∧
    (∀ (text : String) (max_len : Nat),
      (∀ x ∈ contextLines text, isQuestionLine x = false ∧ isPathLine x = false) →
      contextLines text ≠ [] →
      extract_context text max_len = pyTake ((contextLines text).getLastD "") max_len) := by
  refine ⟨fun _ => rfl, ?_, ?_, ?_, ?_⟩
  · intro text max_len htrim
    by_cases htext : text = ""
    · rw [htext]; rfl
    · have hlines : contextLines text = [] := by
        unfold contextLines
        rw [htrim]
        decide
      simp [extract_context, htext, hlines]
  · intro text max_len pre l post hsplit hq hpre
    by_cases htext : text = ""
    · rw [htext] at hsplit
      have h0 : contextLines "" = [] := by decide
      rw [h0] at hsplit
      exact absurd hsplit (by simp)
    · have hfind := find?_eq_some_of_split isQuestionLine pre l post hpre hq
      rw [← hsplit] at hfind
      have hne : (contextLines text).isEmpty = false := by
        rw [hsplit]; simp
      simp [extract_context, htext, hne, hfind]
  · intro text max_len pre l post hsplit hnoq hp hpre
    by_cases htext : text = ""
    · rw [htext] at hsplit
      have h0 : contextLines "" = [] := by decide
      rw [h0] at hsplit
      exact absurd hsplit (by simp)
    · have hqnone : (contextLines text).find? isQuestionLine = none :=
        List.find?_eq_none.mpr (fun x hx => by simp [hnoq x hx])
      have hfind := find?_eq_some_of_split isPathLine pre l post hpre hp
      rw [← hsplit] at hfind
      have hne : (contextLines text).isEmpty = false := by
        rw [hsplit]; simp
      simp [extract_context, htext, hne, hqnone, hfind]
  · intro text max_len hnone hne
    by_cases htext : text = ""
    · rw [htext] at hne
      exact absurd (by decide : contextLines "" = []) hne
    · have hqnone : (contextLines text).find? isQuestionLine = none :=
        List.find?_eq_none.mpr (fun x hx => by simp [(hnone x hx).1])
      have hpnone : (contextLines text).find? isPathLine = none :=
        List.find?_eq_none.mpr (fun x hx => by simp [(hnone x hx).2])
      have hemp : (contextLines text).isEmpty = false := by
        cases h : contextLines text with
        | nil => exact absurd h hne
        | cons a t => simp
      simp [extract_context, htext, hemp, hqnone, hpnone]

theorem C8_witness :
    contextLines textC8 =
      [] ++ "Should I proceed with the migration?" :: ["See src/main.py for details."] ∧
    isQuestionLine "Should I proceed with the migration?" = true ∧
    extract_context textC8 100 = pyTake "Should I proceed with the migration?" 100 ∧
    extract_context "   " 50 = "" ∧
    extract_context textC8b 60 = pyTake "see src/main.py now" 60 ∧
    extract_context textC8c 70 = pyTake ((contextLines textC8c).getLastD "") 70 := by
  refine ⟨by decide, by decide, ?_, ?_, ?_, ?_⟩
  · exact C8_extract_context.2.2.1 textC8 100 []
      "Should I proceed with the migration?" ["See src/main.py for details."]
      (by decide) (by decide) (fun x hx => absurd hx (List.not_mem_nil x))
  · exact C8_extract_context.2.1 "   " 50 (by decide)
  · exact C8_extract_context.2.2.2.1 textC8b 60 ["ok"] "see src/main.py now" []
      (by decide) (by decide) (by decide) (by decide)
  · exact C8_extract_context.2.2.2.2 textC8c 70 (by decide) (by decide)

/-- C6: `extract_last_assistant_text` scans at most the trailing 100
transcript lines in reverse, returning the newline-joined text blocks of
the most recent record with outer type `"assistant"`, message role
`"assistant"`, and at least one text block; records that do not qualify
(malformed JSON, wrong type or role, assistant records with no text
blocks) are skipped, and an empty, missing, or unreadable path — or a
window with no qualifying record — yields the empty string. -/
theorem C6_extract_last_assistant :
    (∀ fs : Fs, extract_last_assistant_text fs "" = "") ∧
    (∀ (fs : Fs) (path : String), fs path = none →
      extract_last_assistant_text fs path = "") ∧
    (∀ (fs₁ fs₂ : Fs) (path : String) (pre lines : List TranscriptLine),
      path ≠ "" → lines.length = 100 →
      fs₁ path = some (pre ++ lines) → fs₂ path = some lines →
      extract_last_assistant_text fs₁ path = extract_last_assistant_text fs₂ path) ∧
    (∀ (fs : Fs) (path : String) (ls : List TranscriptLine) (t : TranscriptLine),
      path ≠ "" → fs path = some (ls ++ [t]) → isLastAssistantHit t.parsed = true →
      extract_last_assistant_text fs path = pyJoin "\n" (tlineTexts t.parsed)) ∧
    (∀ (fs₁ fs₂ : Fs) (path : String) (ls : List TranscriptLine) (t : TranscriptLine),
      path ≠ "" → ls.length ≤ 99 → isLastAssistantHit t.parsed = false →
      fs₁ path = some (ls ++ [t]) → fs₂ path = some ls →
      extract_last_assistant_text fs₁ path = extract_last_assistant_text fs₂ path) ∧
    (∀ (fs : Fs) (path : String) (lines : List TranscriptLine),
      fs path = some lines →
      (∀ l ∈ lines, isLastAssistantHit l.parsed = false) →
      extract_last_assistant_text fs path = "") := by
  refine ⟨fun _ => rfl, ?_, ?_, ?_, ?_, ?_⟩
  · intro fs path h
    by_cases hp : path = "" <;> simp [extract_last_assistant_text, hp, h]
  · intro fs₁ fs₂ path pre lines hp h100 h1 h2
    simp only [extract_last_assistant_text, if_neg hp, h1, h2]
    have hmap : (pre ++ lines).map TranscriptLine.parsed =
        pre.map TranscriptLine.parsed ++ lines.map TranscriptLine.parsed :=
      List.map_append _ _ _
    rw [hmap]
    have hlen1 : (pre.map TranscriptLine.parsed ++ lines.map TranscriptLine.parsed).length =
        pre.length + 100 := by simp [h100]
    have hlen2 : (lines.map TranscriptLine.parsed).length = 100 := by simp [h100]
    rw [hlen1, hlen2]
    have hk1 : pre.length + 100 - 100 = pre.length := by omega
    have hk2 : 100 - 100 = 0 := by omega
    rw [hk1, hk2, List.drop_zero]
    have hpl : pre.length = (pre.map TranscriptLine.parsed).length := by simp
    rw [hpl, List.drop_left]
  · intro fs path ls t hp hfs hhit
    simp only [extract_last_assistant_text, if_neg hp, hfs]
    have hmap : (ls ++ [t]).map TranscriptLine.parsed =
        ls.map TranscriptLine.parsed ++ [t.parsed] := by simp
    rw [hmap]
    have hlen : (ls.map TranscriptLine.parsed ++ [t.parsed]).length = ls.length + 1 := by simp
    rw [hlen]
    have hk : ls.length + 1 - 100 ≤ (ls.map TranscriptLine.parsed).length := by
      simp
    rw [drop_append_le _ _ _ hk]
    rw [List.reverse_append]
    simp only [List.reverse_singleton, List.singleton_append]
    exact scanRev_hit _ _ hhit
  · intro fs₁ fs₂ path ls t hp hlen hskip h1 h2
    simp only [extract_last_assistant_text, if_neg hp, h1, h2]
    have hmap : (ls ++ [t]).map TranscriptLine.parsed =
        ls.map TranscriptLine.parsed ++ [t.parsed] := by simp
    rw [hmap]
    have hlen1 : (ls.map TranscriptLine.parsed ++ [t.parsed]).length = ls.length + 1 := by
      simp
    have hlen2 : (ls.map TranscriptLine.parsed).length = ls.length := by simp
    rw [hlen1, hlen2]
    have hk1 : ls.length + 1 - 100 = 0 := by omega
    have hk2 : ls.length - 100 = 0 := by omega
    rw [hk1, hk2, List.drop_zero, List.drop_zero]
    rw [List.reverse_append]
    simp only [List.reverse_singleton, List.singleton_append]
    exact scanRev_skip _ _ hskip
  · intro fs path lines hfs hall
    by_cases hp : path = ""
    · simp [extract_last_assistant_text, hp]
    · simp only [extract_last_assistant_text, if_neg hp, hfs]
      apply scanRev_all_skip
      intro l hl
      rw [List.mem_reverse] at hl
      have hl2 := List.mem_of_mem_drop hl
      obtain ⟨x, hx, rfl⟩ := List.mem_map.mp hl2
      exact hall x hx

theorem C6_witness :
    extract_last_assistant_text fsC6 "t6" = pyJoin "\n" (tlineTexts tlC6.parsed) ∧
    pyJoin "\n" (tlineTexts tlC6.parsed) = "Build complete.\nAll tests pass." ∧
    extract_last_assistant_text fsC6a "w" = extract_last_assistant_text fsC6b "w" ∧
    extract_last_assistant_text fsC6b "w" = "" := by
  refine ⟨?_, by decide, ?_, ?_⟩
  · exact C6_extract_last_assistant.2.2.2.1 fsC6 "t6" preC6 tlC6 (by decide) rfl (by decide)
  · exact C6_extract_last_assistant.2.2.1 fsC6a fsC6b "w" preC6 lines100 (by decide)
      (by decide) rfl rfl
  · exact C6_extract_last_assistant.2.2.2.2.2 fsC6b "w" lines100 rfl (by decide)

/-- C3 counterexample: with well-formed stdin but a missing
configuration file, `load_config` is called outside `main`'s try/except
and raises, so the process exits with a failing status — the claim that
a missing config degrades to a no-op with exit 0 is false. -/
theorem C3_counterexample :
    exitCode (main (Stdin.ok evC3) none fsNone storeEmpty) ≠ 0 := by
  decide

/-- C3 (amended): malformed stdin JSON always exits 0 (the parse error
is caught and `main` returns); with a loadable config, an unrecognized
`hook_event_name` and a missing transcript both degrade to a no-op with
exit 0; but with parseable stdin and a missing (or unparseable)
configuration file the uncaught exception from `load_config` produces a
failing exit status. -/
theorem C3_exit_status_amended :
    (∀ (configFile : Option Config) (fs : Fs) (store : Store),
      exitCode (main Stdin.malformed configFile fs store) = 0) ∧
    (∀ (event : Event) (config : Config) (fs : Fs) (store : Store),
      event.hook_event_name ∉ ["SessionStart", "UserPromptSubmit", "Stop", "Notification"] →
      exitCode (main (Stdin.ok event) (some config) fs store) = 0) ∧
    (∀ (event : Event) (config : Config) (fs : Fs) (store : Store),
      fs event.transcript_path = none →
      exitCode (main (Stdin.ok event) (some config) fs store) = 0) ∧
    (∀ (event : Event) (fs : Fs) (store : Store),
      exitCode (main (Stdin.ok event) none fs store) = 1) := by
  refine ⟨fun _ _ _ => rfl, ?_, ?_, fun _ _ _ => rfl⟩
  · intro event config fs store hname
    simp only [List.mem_cons, List.not_mem_nil, or_false, not_or] at hname
    obtain ⟨h1, h2, h3, h4⟩ := hname
    simp [main, load_config, runHandler, h1, h2, h3, h4, exitCode, Bind.bind, Except.bind]
  · intro event config fs store hfs
    by_cases hn1 : event.hook_event_name = "SessionStart"
    · simp [main, load_config, runHandler, hn1, handle_session_start, exitCode,
        Bind.bind, Except.bind]
    · by_cases hn2 : event.hook_event_name = "UserPromptSubmit"
      · obtain ⟨v, hv⟩ := resolve_ok_of_missing fs event config hfs
        obtain ⟨x, hx⟩ := handle_user_prompt_ok event config fs store v hv
        simp [main, load_config, runHandler, hn1, hn2, hx, exitCode, Bind.bind, Except.bind]
      · by_cases hn3 : event.hook_event_name = "Stop"
        · obtain ⟨v, hv⟩ := resolve_ok_of_missing fs event config hfs
          obtain ⟨x, hx⟩ := handle_stop_ok event config fs store v hv
          simp [main, load_config, runHandler, hn1, hn2, hn3, hx, exitCode,
            Bind.bind, Except.bind]
        · by_cases hn4 : event.hook_event_name = "Notification"
          · obtain ⟨v, hv⟩ := resolve_ok_of_missing fs event config hfs
            have hok := handle_notification_isOk event config fs store v hv
            have hm : main (Stdin.ok event) (some config) fs store =
                handle_notification event config fs store := by
              simp [main, load_config, runHandler, hn1, hn2, hn3, hn4, Bind.bind, Except.bind]
            rw [hm]
            exact exitCode_eq_zero_of_isOk _ hok
          · simp [main, load_config, runHandler, hn1, hn2, hn3, hn4, exitCode,
              Bind.bind, Except.bind]

theorem C3_witness :
    exitCode (main Stdin.malformed none fsNone storeEmpty) = 0 ∧
    evC3unknown.hook_event_name ∉
      ["SessionStart", "UserPromptSubmit", "Stop", "Notification"] ∧
    exitCode (main (Stdin.ok evC3unknown) (some cfgEmpty) fsNone storeEmpty) = 0 ∧
    fsNone evC3.transcript_path = none ∧
    exitCode (main (Stdin.ok evC3) (some cfgEmpty) fsNone storeEmpty) = 0 ∧
    exitCode (main (Stdin.ok evC3) none fsNone storeEmpty) = 1 := by
  refine ⟨C3_exit_status_amended.1 none fsNone storeEmpty, by decide, ?_, rfl, ?_, ?_⟩
  · exact C3_exit_status_amended.2.1 evC3unknown cfgEmpty fsNone storeEmpty (by decide)
  · exact C3_exit_status_amended.2.2.1 evC3 cfgEmpty fsNone storeEmpty rfl
  · exact C3_exit_status_amended.2.2.2 evC3 fsNone storeEmpty

/-- C5 counterexample: a Stop event whose text matches a critical
pattern does write the record with seen=false, but the subsequent
`mark_seen` does not return that previous record — the returned record
already has `seen = true`. -/
theorem C5_counterexample :
    storeAfterStopC5 "t1" =
      FileContent.record ⟨false, "critical", "web", "Need approval?"⟩ ∧
    (mark_seen storeAfterStopC5 "t1").2 ≠
      some ⟨false, "critical", "web", "Need approval?"⟩ ∧
    (mark_seen storeAfterStopC5 "t1").2 =
      some ⟨true, "critical", "web", "Need approval?"⟩ ∧
    (mark_seen storeAfterStopC5 "t1").1 "t1" =
      FileContent.record ⟨true, "critical", "web", "Need approval?"⟩ := by
  decide

/-- C5 (amended): handling a Stop event writes the session record as
unseen — seen=false with the classified tier, resolved project and
computed detail — exactly when the tier is critical or complete, and the
default tier writes nothing; the detail is the 40-character-truncated
context (or "needs input" when the context is empty) for critical,
"done" for complete, "idle" otherwise; the tab title carries the unseen
decoration exactly when the marker was set; and a subsequent
`mark_seen` on the same transcript path leaves the file with seen=true
and returns the record with the Stop-written tier, project and detail
(its seen field already flipped to true, not the pre-flip record). -/
theorem C5_handle_stop_amended :
    ∀ (event : Event) (config : Config) (fs : Fs) (store : Store) (project : String),
      resolve_project fs event config = Except.ok project →
      event.transcript_path ≠ "" →
      ∃ store1 effects,
        handle_stop event config fs store = Except.ok (store1, effects) ∧
        ((stopTier fs config event = "critical" ∨ stopTier fs config event = "complete") →
          store1 event.transcript_path =
            FileContent.record
              ⟨false, stopTier fs config event, project, stopDetail fs config event⟩ ∧
          effects.getLast? =
            some (Effect.tab ("🟡 " ++ (project ++ " " ++ stopSymbol fs config event ++ " " ++
              stopDetail fs config event))) ∧
          (mark_seen store1 event.transcript_path).2 =
            some ⟨true, stopTier fs config event, project, stopDetail fs config event⟩ ∧
          (mark_seen store1 event.transcript_path).1 event.transcript_path =
            FileContent.record
              ⟨true, stopTier fs config event, project, stopDetail fs config event⟩) ∧
        (¬(stopTier fs config event = "critical" ∨ stopTier fs config event = "complete") →
          store1 = store ∧
          effects.getLast? =
            some (Effect.tab (project ++ " " ++ stopSymbol fs config event ++ " " ++
              stopDetail fs config event))) := by
  intro event config fs store project hres hpath
  have hstop : handle_stop event config fs store =
      Except.ok
        ((if (stopTier fs config event == "critical" ||
              stopTier fs config event == "complete") then
            write_state store event.transcript_path (stopTier fs config event) project
              (stopDetail fs config event)
          else store),
         play_sound ((config.getTier (stopTier fs config event)).sound.getD "") ++
           tab project (stopSymbol fs config event) (stopDetail fs config event)
             (stopTier fs config event == "critical" ||
              stopTier fs config event == "complete")) := by
    unfold handle_stop
    rw [hres]
    rfl
  by_cases hc : stopTier fs config event = "critical" ∨ stopTier fs config event = "complete"
  · have hb : (stopTier fs config event == "critical" ||
        stopTier fs config event == "complete") = true := by
      rcases hc with h | h <;> simp [h]
    have hstop2 : handle_stop event config fs store =
        Except.ok
          (write_state store event.transcript_path (stopTier fs config event) project
              (stopDetail fs config event),
           play_sound ((config.getTier (stopTier fs config event)).sound.getD "") ++
             tab project (stopSymbol fs config event) (stopDetail fs config event) true) := by
      rw [hstop, hb]
      rfl
    have hrec : write_state store event.transcript_path (stopTier fs config event) project
          (stopDetail fs config event) event.transcript_path =
        FileContent.record
          ⟨false, stopTier fs config event, project, stopDetail fs config event⟩ := by
      simp [write_state, hpath, Store.set]
    refine ⟨_, _, hstop2, ?_, fun h => absurd hc h⟩
    intro _
    refine ⟨hrec, ?_, ?_, ?_⟩
    · simp [tab, set_tab_title, List.getLast?_concat]
    · simp [mark_seen, hpath, hrec, Store.set]
    · simp [mark_seen, hpath, hrec, Store.set]
  · have h1 : stopTier fs config event ≠ "critical" := fun h => hc (Or.inl h)
    have h2 : stopTier fs config event ≠ "complete" := fun h => hc (Or.inr h)
    have hb : (stopTier fs config event == "critical" ||
        stopTier fs config event == "complete") = false := by
      simp [h1, h2]
    have hstop2 : handle_stop event config fs store =
        Except.ok
          (store,
           play_sound ((config.getTier (stopTier fs config event)).sound.getD "") ++
             tab project (stopSymbol fs config event) (stopDetail fs config event) false) := by
      rw [hstop, hb]
      rfl
    refine ⟨_, _, hstop2, fun h => absurd h hc, ?_⟩
    intro _
    refine ⟨rfl, ?_⟩
    simp [tab, set_tab_title, List.getLast?_concat]

theorem C5_witness :
    resolve_project fsC5 evC5 cfgC5 = Except.ok "web" ∧
    stopTier fsC5 cfgC5 evC5 = "critical" ∧
    stopDetail fsC5 cfgC5 evC5 = "Need approval?" ∧
    (∃ store1 effects,
      handle_stop evC5 cfgC5 fsC5 storeEmpty = Except.ok (store1, effects) ∧
      ((stopTier fsC5 cfgC5 evC5 = "critical" ∨ stopTier fsC5 cfgC5 evC5 = "complete") →
        store1 evC5.transcript_path =
          FileContent.record
            ⟨false, stopTier fsC5 cfgC5 evC5, "web", stopDetail fsC5 cfgC5 evC5⟩ ∧
        effects.getLast? =
          some (Effect.tab ("🟡 " ++ ("web" ++ " " ++ stopSymbol fsC5 cfgC5 evC5 ++ " " ++
            stopDetail fsC5 cfgC5 evC5))) ∧
        (mark_seen store1 evC5.transcript_path).2 =
          some ⟨true, stopTier fsC5 cfgC5 evC5, "web", stopDetail fsC5 cfgC5 evC5⟩ ∧
        (mark_seen store1 evC5.transcript_path).1 evC5.transcript_path =
          FileContent.record
            ⟨true, stopTier fsC5 cfgC5 evC5, "web", stopDetail fsC5 cfgC5 evC5⟩) ∧
      (¬(stopTier fsC5 cfgC5 evC5 = "critical" ∨ stopTier fsC5 cfgC5 evC5 = "complete") →
        store1 = storeEmpty ∧
        effects.getLast? =
          some (Effect.tab ("web" ++ " " ++ stopSymbol fsC5 cfgC5 evC5 ++ " " ++
            stopDetail fsC5 cfgC5 evC5)))) := by
  refine ⟨rfl, by decide, by decide, ?_⟩
  exact C5_handle_stop_amended evC5 cfgC5 fsC5 storeEmpty "web" rfl (by decide)

/-- C7 counterexample: when the winning capture-group value is the empty
string (a compilable pattern with an optionally-empty group, e.g.
`x(y?)` against the line `xz`), `resolve_project` does not return that
max-count value — `detect_project`'s `""` is falsy, so the code falls
through to the configured fallback. -/
theorem C7_counterexample :
    transcriptCaptures cfgC7.project.path_pattern [⟨"xz", TLine.malformed⟩] = [""] ∧
    resolve_project fsC7 evC7 cfgC7 = Except.ok "fb" ∧
    resolve_project fsC7 evC7 cfgC7 ≠ Except.ok "" := by
  refine ⟨by decide, rfl, ?_⟩
  intro h
  have hr : resolve_project fsC7 evC7 cfgC7 = Except.ok "fb" := rfl
  rw [hr] at h
  exact absurd (Except.ok.inj h) (by decide)

/-- C7 (amended): with a compilable pattern, `resolve_project` returns
the capture-group value with the highest occurrence count over all
matches across every raw transcript line, ties among maxima broken by
earliest first occurrence — provided that winning value is non-empty (an
empty-string winner is falsy and falls through to the fallback chain);
when the transcript path is empty, the pattern is unset, the transcript
is missing/unreadable, or no matches occur, it returns the configured
fallback if non-empty, else the basename of the event's working
directory, else the fixed label "claude". -/
theorem C7_resolve_project_amended :
    (∀ (fs : Fs) (event : Event) (config : Config) (lines : List TranscriptLine)
      (w : String),
      config.project.path_pattern.valid = true →
      config.project.path_pattern.raw ≠ "" →
      event.transcript_path ≠ "" →
      fs event.transcript_path = some lines →
      w ∈ transcriptCaptures config.project.path_pattern lines →
      w ≠ "" →
      (∀ n ∈ transcriptCaptures config.project.path_pattern lines,
        (transcriptCaptures config.project.path_pattern lines).count n ≤
          (transcriptCaptures config.project.path_pattern lines).count w) →
      (∀ n ∈ transcriptCaptures config.project.path_pattern lines,
        (transcriptCaptures config.project.path_pattern lines).count n =
          (transcriptCaptures config.project.path_pattern lines).count w →
        (transcriptCaptures config.project.path_pattern lines).indexOf w ≤
          (transcriptCaptures config.project.path_pattern lines).indexOf n) →
      resolve_project fs event config = Except.ok w) ∧
    (∀ (fs : Fs) (event : Event) (config : Config),
      event.transcript_path = "" ∨ config.project.path_pattern.raw = "" ∨
        fs event.transcript_path = none →
      resolve_project fs event config = Except.ok (fallbackChain config event)) ∧
    (∀ (fs : Fs) (event : Event) (config : Config) (lines : List TranscriptLine),
      config.project.path_pattern.valid = true →
      fs event.transcript_path = some lines →
      transcriptCaptures config.project.path_pattern lines = [] →
      resolve_project fs event config = Except.ok (fallbackChain config event)) := by
  refine ⟨?_, ?_, ?_⟩
  · intro fs event config lines w hvalid hraw hpath hfs hw hwne hmax htie
    have hdet := detect_project_found fs event.transcript_path config lines w hvalid hraw
      hpath hfs hw hmax htie
    unfold resolve_project
    rw [hdet]
    show (if w ≠ "" then pure w else
      if config.project.fallback ≠ "" then pure config.project.fallback
      else pure (cwd_label event) : Except PyErr String) = Except.ok w
    rw [if_pos hwne]
    rfl
  · intro fs event config hcase
    rcases hcase with h | h | h
    · refine resolve_project_fallback fs event config ?_
      rw [h]
      exact detect_project_empty_path fs config
    · exact resolve_project_fallback fs event config
        (detect_project_empty_pattern fs event.transcript_path config h)
    · exact resolve_project_fallback fs event config
        (detect_project_missing fs event.transcript_path config h)
  · intro fs event config lines hvalid hfs hcaps
    exact resolve_project_fallback fs event config
      (detect_project_no_captures fs event.transcript_path config lines hvalid hfs hcaps)

theorem C7_witness :
    "proj-B" ∈ transcriptCaptures cfgC7w.project.path_pattern linesC7w ∧
    (transcriptCaptures cfgC7w.project.path_pattern linesC7w).count "proj-A" = 3 ∧
    (transcriptCaptures cfgC7w.project.path_pattern linesC7w).count "proj-B" = 5 ∧
    resolve_project fsC7w evC7w cfgC7w = Except.ok "proj-B" ∧
    resolve_project fsNone evC7 cfgC7 = Except.ok (fallbackChain cfgC7 evC7) := by
  refine ⟨by decide, by decide, by decide, ?_, ?_⟩
  · exact C7_resolve_project_amended.1 fsC7w evC7w cfgC7w linesC7w "proj-B" rfl
      (by decide) (by decide) rfl (by decide) (by decide) (by decide) (by decide)
  · exact C7_resolve_project_amended.2.1 fsNone evC7 cfgC7 (Or.inr (Or.inr rfl))

end Attention
